import Mathlib

/-!
Verification of the RTMP streaming glue code of this repository
(`src/main/shared/ffmpegUtils.ts`, `src/main/shared/rtmp/cameraRtmp/cameraRtmp.ts`,
`src/main/index.ts`), shallowly embedded in Lean.

Modelling conventions:

* `process.platform` is the `Platform` type (`darwin`, `win32`, `linux`, or any
  other platform value).
* JavaScript strings are `String` / `List Char`.  The specific regular
  expressions used by the source are implemented as explicit leftmost-match
  scanners.  In every pattern of the source, the character classes adjacent to
  a greedy quantifier are disjoint (digits next to `x`, `@`, `.`, `]`, `:` or
  whitespace), so greedy maximal-munch scanning restarting one character later
  on failure is exactly the JavaScript regex semantics; the one reachable
  backtracking case of `\[(\d+)\]\s+(.+)` (when `\s+` must give a character
  back to `.+`) is implemented explicitly.
* Frame rates (results of `parseFloat` on `\d+\.\d+` and `parseInt` on `\d+`)
  are modelled as exact rationals.
* A JavaScript `Map` (insertion ordered; `set` updates an existing key in
  place) is an association list with an update-or-append `setEntry`.
-/

set_option linter.unusedVariables false

inductive Platform
  | darwin
  | win32
  | linux
  | other
deriving DecidableEq

/-- Class `\s` (JavaScript whitespace class, restricted to the ASCII whitespace that
can occur in the diagnostic transcripts). -/
def isSpaceChar (c : Char) : Bool := c.isWhitespace

/-- Numeric value of a digit string (the `parseInt` of a `\d+` match). -/
def natOfDigits (l : List Char) : Nat :=
  l.foldl (fun n c => 10 * n + (c.toNat - 48)) 0

/-- Value of the decimal literal `a.b` (the `parseFloat` of a `\d+\.\d+`
match), as an exact rational. -/
def decimalVal (a b : List Char) : ℚ :=
  mkRat (natOfDigits a * 10 ^ b.length + natOfDigits b) (10 ^ b.length)

def isPrefixSeq : List Char → List Char → Bool
  | [], _ => true
  | _ :: _, [] => false
  | p :: ps, c :: cs => p = c && isPrefixSeq ps cs

/-- Model of `String.prototype.includes` on character lists. -/
def containsSeq (pat : List Char) : List Char → Bool
  | [] => pat.isEmpty
  | c :: cs => isPrefixSeq pat (c :: cs) || containsSeq pat cs

/-- Model of `String.prototype.trim`. -/
def trimChars (l : List Char) : List Char :=
  ((l.dropWhile isSpaceChar).reverse.dropWhile isSpaceChar).reverse

/-- Model of `String.prototype.split('\n')` (keeps empty pieces). -/
def splitNl : List Char → List (List Char)
  | [] => [[]]
  | c :: cs =>
    match splitNl cs with
    | [] => [[]]
    | r :: rs => if c = '\n' then [] :: r :: rs else (c :: r) :: rs

/-- Attempted match of `\[(\d+)\]\s+(.+)` anchored at the head of the list;
returns the two capture groups.  The `r4.isEmpty` branch is the backtracking
case where `\s+` gives its last character back to `.+`. -/
def headerHere (l : List Char) : Option (List Char × List Char) :=
  match l with
  | '[' :: r1 =>
    let ds := r1.takeWhile Char.isDigit
    let r2 := r1.dropWhile Char.isDigit
    if ds.isEmpty then none else
    match r2 with
    | ']' :: r3 =>
      let ws := r3.takeWhile isSpaceChar
      let r4 := r3.dropWhile isSpaceChar
      if ws.isEmpty then none
      else if r4.isEmpty then
        if 2 ≤ ws.length then
          match ws.getLast? with
          | some wc => some (ds, [wc])
          | none => none
        else none
      else some (ds, r4)
    | _ => none
  | _ => none

/-- Leftmost match of `/\[(\d+)\]\s+(.+)/` (the darwin device-header line
pattern of `parseAvailableFramerates`). -/
def headerScan : List Char → Option (List Char × List Char)
  | [] => none
  | c :: cs =>
    match headerHere (c :: cs) with
    | some r => some r
    | none => headerScan cs

/-- Attempted match of `(\d+x\d+)@\[(\d+\.\d+)\s+\d+\.\d+\]fps` anchored at
the head of the list; returns the parsed value of the second capture group. -/
def modeHere (l : List Char) : Option ℚ :=
  let d1 := l.takeWhile Char.isDigit
  let r1 := l.dropWhile Char.isDigit
  if d1.isEmpty then none else
  match r1 with
  | 'x' :: r2 =>
    let d2 := r2.takeWhile Char.isDigit
    let r3 := r2.dropWhile Char.isDigit
    if d2.isEmpty then none else
    match r3 with
    | '@' :: '[' :: r4 =>
      let a := r4.takeWhile Char.isDigit
      let r5 := r4.dropWhile Char.isDigit
      if a.isEmpty then none else
      match r5 with
      | '.' :: r6 =>
        let b := r6.takeWhile Char.isDigit
        let r7 := r6.dropWhile Char.isDigit
        if b.isEmpty then none else
        let ws := r7.takeWhile isSpaceChar
        let r8 := r7.dropWhile isSpaceChar
        if ws.isEmpty then none else
        let e1 := r8.takeWhile Char.isDigit
        let r9 := r8.dropWhile Char.isDigit
        if e1.isEmpty then none else
        match r9 with
        | '.' :: r10 =>
          let e2 := r10.takeWhile Char.isDigit
          let r11 := r10.dropWhile Char.isDigit
          if e2.isEmpty then none else
          match r11 with
          | ']' :: 'f' :: 'p' :: 's' :: _ => some (decimalVal a b)
          | _ => none
        | _ => none
      | _ => none
    | _ => none
  | _ => none

/-- Leftmost match of `/(\d+x\d+)@\[(\d+\.\d+)\s+\d+\.\d+\]fps/` (the darwin
mode line pattern of `parseAvailableFramerates`). -/
def modeScan : List Char → Option ℚ
  | [] => none
  | c :: cs =>
    match modeHere (c :: cs) with
    | some r => some r
    | none => modeScan cs

def fpsPat : List Char := ['f', 'p', 's', '=']

def fpsHere (l : List Char) : Option (List Char) :=
  if l.take 4 = fpsPat then
    let ds := (l.drop 4).takeWhile Char.isDigit
    if ds.isEmpty then none else some ds
  else none

/-- Leftmost match of `/fps=(\d+)/` (the win32 branch of
`parseAvailableFramerates`). -/
def fpsScan : List Char → Option (List Char)
  | [] => none
  | c :: cs =>
    match fpsHere (c :: cs) with
    | some r => some r
    | none => fpsScan cs

def screenColonPat : List Char := ['s', 'c', 'r', 'e', 'e', 'n', ':']

def screenNumHere (l : List Char) : Option (List Char) :=
  if l.take 7 = screenColonPat then
    let ds := (l.drop 7).takeWhile Char.isDigit
    if ds.isEmpty then none else some ds
  else none

/-- Leftmost match of `/screen:(\d+)/` (screen id extraction in
`startScreenRtmpStream`). -/
def screenNumScan : List Char → Option (List Char)
  | [] => none
  | c :: cs =>
    match screenNumHere (c :: cs) with
    | some r => some r
    | none => screenNumScan cs

def screenColonNumHere (l : List Char) : Option (List Char) :=
  if l.take 7 = screenColonPat then
    let rest := l.drop 7
    let ds := rest.takeWhile Char.isDigit
    if ds.isEmpty then none
    else
      match rest.dropWhile Char.isDigit with
      | ':' :: _ => some ds
      | _ => none
  else none

/-- Leftmost match of `/screen:(\d+):/` (screen id extraction in
`getBestFramerate`). -/
def screenColonNumScan : List Char → Option (List Char)
  | [] => none
  | c :: cs =>
    match screenColonNumHere (c :: cs) with
    | some r => some r
    | none => screenColonNumScan cs

/-- Leftmost match of `/\d+/` (audio device id extraction in
`startScreenRtmpStream`). -/
def digitRunScan : List Char → Option (List Char)
  | [] => none
  | c :: cs => if c.isDigit then some ((c :: cs).takeWhile Char.isDigit) else digitRunScan cs

/-- Test `/^\d+$/.test` (screen id extraction in `startScreenRtmpStream`). -/
def allDigitsTest (l : List Char) : Bool := !l.isEmpty && l.all Char.isDigit

/-- Update-or-append on an association list: the model of `Map.prototype.set`
(insertion order preserved, existing keys updated in place). -/
def setEntry (m : List (List Char × List ℚ)) (k : List Char) (v : List ℚ) :
    List (List Char × List ℚ) :=
  match m with
  | [] => [(k, v)]
  | (k', v') :: rest => if k' = k then (k, v) :: rest else (k', v') :: setEntry rest k v

/-- Model of `Map.prototype.get` as an option. -/
def lookupEntry (m : List (List Char × List ℚ)) (k : List Char) : Option (List ℚ) :=
  match m with
  | [] => none
  | (k', v') :: rest => if k' = k then some v' else lookupEntry rest k

/-- Parser state of `parseAvailableFramerates`: `deviceFramerates` and
`currentDevice` (`[]` models the initial falsy `''`). -/
structure PState where
  map : List (List Char × List ℚ)
  current : List Char
deriving DecidableEq

def initPState : PState := ⟨[], []⟩

/-- The mode-line attachment of `parseAvailableFramerates`: fetch the current
device's list (or `[]`), and append the rate unless already present. -/
def attachRate (m : List (List Char × List ℚ)) (key : List Char) (r : ℚ) :
    List (List Char × List ℚ) :=
  let old := (lookupEntry m key).getD []
  if r ∈ old then m else setEntry m key (old ++ [r])

/-- One loop iteration of `parseAvailableFramerates` on darwin. -/
def stepDarwin (st : PState) (rawLine : List Char) : PState :=
  let line := trimChars rawLine
  match headerScan line with
  | some (ds, name) =>
    let key := ds ++ ':' :: ' ' :: name
    { map := setEntry st.map key [], current := key }
  | none =>
    match modeScan line with
    | some r =>
      if st.current ≠ [] then { st with map := attachRate st.map st.current r } else st
    | none => st

/-- One loop iteration of `parseAvailableFramerates` on win32. -/
def stepWin32 (st : PState) (rawLine : List Char) : PState :=
  let line := trimChars rawLine
  if containsSeq fpsPat line then
    match fpsScan line with
    | some ds =>
      if st.current ≠ [] then
        { st with map := attachRate st.map st.current (mkRat (natOfDigits ds) 1) }
      else st
    | none => st
  else st

/-- One loop iteration of `parseAvailableFramerates` (platform dispatch; on
platforms other than darwin and win32 the loop body does nothing). -/
def parseStep (p : Platform) (st : PState) (l : List Char) : PState :=
  match p with
  | .darwin => stepDarwin st l
  | .win32 => stepWin32 st l
  | _ => st

/-- Function `parseAvailableFramerates` of `ffmpegUtils.ts`. -/
def parseAvailableFramerates (p : Platform) (ffmpegOutput : String) :
    List (List Char × List ℚ) :=
  ((splitNl ffmpegOutput.toList).foldl (parseStep p) initPState).map

/-- The device matching test of the loop in `getBestFramerate`:
`device.startsWith(ffmpegDeviceId + ':') || device.includes(ffmpegDeviceId)`. -/
def deviceMatches (device fid : List Char) : Bool :=
  isPrefixSeq (fid ++ [':']) device || containsSeq fid device

/-- The screen-id normalization at the top of `getBestFramerate`: on darwin a
`screen:`-prefixed id is replaced by the `/screen:(\d+):/` capture group, or
`'1'` when there is no match. -/
def resolveFfmpegId (p : Platform) (deviceId : String) : List Char :=
  let d := deviceId.toList
  if p = .darwin && isPrefixSeq screenColonPat d then
    (screenColonNumScan d).getD ['1']
  else d

/-- Descending insertion: helper for the model of
`[...framerates].sort((a, b) => b - a)`. -/
def insertDesc (x : ℚ) : List ℚ → List ℚ
  | [] => [x]
  | y :: ys => if y ≤ x then x :: y :: ys else y :: insertDesc x ys

/-- Model of `[...framerates].sort((a, b) => b - a)`. -/
def sortDesc (l : List ℚ) : List ℚ := l.foldr insertDesc []

/-- The rates list the loop of `getBestFramerate` would select: the first
entry (in map insertion order) whose key matches the device id and whose rate
list is non-empty. -/
def findRates : List (List Char × List ℚ) → List Char → Option (List ℚ)
  | [], _ => none
  | (d, rates) :: rest, fid =>
    if deviceMatches d fid then
      if rates.isEmpty then findRates rest fid else some rates
    else findRates rest fid

/-- The `for (const [device, framerates] of deviceFramerates.entries())` loop
of `getBestFramerate`: returns `sortedRates[0]` of the first matching
non-empty entry. -/
def bestLoop : List (List Char × List ℚ) → List Char → Option ℚ
  | [], _ => none
  | (d, rates) :: rest, fid =>
    if deviceMatches d fid then
      if rates.isEmpty then bestLoop rest fid
      else some ((sortDesc rates).headD 0)
    else bestLoop rest fid

/-- The platform-default framerate at the bottom of `getBestFramerate`. -/
def platformDefault (p : Platform) : ℚ :=
  match p with
  | .darwin => 60
  | .win32 => 30
  | _ => 30

/-- Function `getBestFramerate` of `ffmpegUtils.ts`, parameterized by the text the
device-listing subprocess produced (`getDeviceFramerates` pipes that text
through `parseAvailableFramerates`). -/
def getBestFramerate (p : Platform) (output : String) (deviceId : String) : ℚ :=
  let m := parseAvailableFramerates p output
  let fid := resolveFfmpegId p deviceId
  match bestLoop m fid with
  | some r => r
  | none => platformDefault p

/-- Application of `attachRate` when the line is a mode line, the identity otherwise: one
loop iteration of the darwin parser once a current device is open. -/
def attachStep (m : List (List Char × List ℚ)) (key : List Char) (l : List Char) :
    List (List Char × List ℚ) :=
  match modeScan (trimChars l) with
  | some r => attachRate m key r
  | none => m

def attachFold (m : List (List Char × List ℚ)) (key : List Char)
    (post : List (List Char)) : List (List Char × List ℚ) :=
  post.foldl (fun acc l => attachStep acc key l) m

/-- Deduplicating accumulation of the frame rates of the mode lines of
`post`, starting from `acc`. -/
def dedupFrom (acc : List ℚ) (post : List (List Char)) : List ℚ :=
  post.foldl
    (fun acc l =>
      match modeScan (trimChars l) with
      | some r => if r ∈ acc then acc else acc ++ [r]
      | none => acc)
    acc

/-- The deduplicated frame rates of the mode lines of `post`. -/
def modeRatesDedup (post : List (List Char)) : List ℚ := dedupFrom [] post

/-- Truthiness of `if (audioDeviceId)` — the test on of the optional audio device id
(`undefined` and the empty string are both falsy). -/
def optTruthy (o : Option String) : Bool :=
  match o with
  | none => false
  | some s => !s.isEmpty

/-- The `streamStatus` record kept by each streaming module. -/
structure StreamStatus where
  isStreaming : Bool
  streamUrl : String
  startTime : Nat
  error : String
deriving DecidableEq

/-- The status every module starts from and every stop resets to. -/
def initialStatus : StreamStatus := ⟨false, "", 0, ""⟩

/-- The platform-dependent `inputFormat` of `startRtmpStream`
(`cameraRtmp.ts`): `dshow` by default, `avfoundation` on darwin, `v4l2` on
linux. -/
def cameraInputFormat (p : Platform) : String :=
  match p with
  | .darwin => "avfoundation"
  | .linux => "v4l2"
  | _ => "dshow"

/-- Constant `videoInput` of `startRtmpStream`: the source ignores the caller-supplied
device id and always uses a generic first-camera name. -/
def cameraVideoInput (p : Platform) : String :=
  if p = .darwin then "0" else "video=Webcam"

/-- The initial `args` vector of `startRtmpStream` (`cameraRtmp.ts`):
input-format and device flags. -/
def cameraInputArgs (p : Platform) : List String :=
  ["-f", cameraInputFormat p, "-framerate", "30", "-video_size", "1280x720",
    "-i", cameraVideoInput p]

/-- The audio block `startRtmpStream` pushes exactly when `audioDeviceId` is
truthy. -/
def cameraAudioArgs (p : Platform) (audioDeviceId : Option String) : List String :=
  if optTruthy audioDeviceId then
    match p with
    | .darwin => ["-f", cameraInputFormat p, "-i", ":0", "-c:a", "aac", "-b:a", "128k"]
    | .win32 => ["-f", cameraInputFormat p, "-i", "audio=Microphone", "-c:a", "aac",
        "-b:a", "128k"]
    | _ => ["-f", "alsa", "-i", "default", "-c:a", "aac", "-b:a", "128k"]
  else []

/-- The output/encoder block `startRtmpStream` pushes last, ending with the
RTMP url. -/
def cameraOutputArgs (rtmpUrl : String) : List String :=
  ["-c:v", "libx264", "-preset", "veryfast", "-b:v", "2500k", "-bufsize",
    "5000k", "-f", "flv", rtmpUrl]

/-- The complete encoder argument vector built by `startRtmpStream`
(`cameraRtmp.ts`), in the order the source pushes the pieces: input block,
then the conditional audio block, then the output block. -/
def cameraArgs (p : Platform) (videoDeviceId : String) (audioDeviceId : Option String)
    (rtmpUrl : String) : List String :=
  cameraInputArgs p ++ cameraAudioArgs p audioDeviceId ++ cameraOutputArgs rtmpUrl

/-- The darwin screen-id extraction of `startScreenRtmpStream`: an all-digit
id is used as is, otherwise the `/screen:(\d+)/` capture group, otherwise the
default `'1'` (main screen). -/
def screenNumericId (screenId : String) : String :=
  if allDigitsTest screenId.toList then screenId
  else
    match screenNumScan screenId.toList with
    | some ds => String.mk ds
    | none => "1"

/-- The platform-dependent capture block of `startScreenRtmpStream`. -/
def screenInputArgs (p : Platform) (screenId : String) : List String :=
  match p with
  | .win32 => ["-f", "gdigrab", "-framerate", "30", "-i", "desktop"]
  | .darwin => ["-f", "avfoundation", "-capture_cursor", "1", "-capture_mouse_clicks",
      "1", "-framerate", "60", "-pix_fmt", "uyvy422", "-i",
      screenNumericId screenId ++ ":none"]
  | _ => ["-f", "x11grab", "-framerate", "30", "-video_size", "1920x1080", "-i", ":0.0"]

/-- The audio block `startScreenRtmpStream` pushes exactly when
`audioDeviceId` is truthy; on darwin the first digit run of the id (default
`'0'`) selects the avfoundation audio device. -/
def screenAudioArgs (p : Platform) (audioDeviceId : Option String) : List String :=
  if optTruthy audioDeviceId then
    match p with
    | .darwin =>
      let audioNumericId :=
        match digitRunScan (audioDeviceId.getD "").toList with
        | some ds => String.mk ds
        | none => "0"
      ["-f", "avfoundation", "-i", ":" ++ audioNumericId, "-c:a", "aac", "-b:a", "128k"]
    | .win32 => ["-f", "dshow", "-i", "audio=Microphone", "-c:a", "aac", "-b:a", "128k"]
    | _ => ["-f", "alsa", "-i", "default", "-c:a", "aac", "-b:a", "128k"]
  else []

/-- The `outputArgs` constant of `startScreenRtmpStream`, ending with the
RTMP url. -/
def screenOutputArgs (rtmpUrl : String) : List String :=
  ["-c:v", "libx264", "-preset", "medium", "-tune", "zerolatency", "-b:v", "6000k",
    "-maxrate", "8000k", "-bufsize", "12000k", "-profile:v", "high", "-level:v",
    "4.2", "-crf", "18", "-g", "60", "-bf", "0", "-pix_fmt", "yuv420p", "-c:a",
    "aac", "-b:a", "192k", "-ar", "48000", "-f", "flv", rtmpUrl]

/-- Vector `allArgs` of `startScreenRtmpStream` (identical in `ffmpegUtils.ts` and
`index.ts`): `[...inputArgs, ...outputArgs]` where the audio block was pushed
onto `inputArgs`. -/
def screenArgs (p : Platform) (audioDeviceId : Option String) (rtmpUrl : String)
    (screenId : String) : List String :=
  screenInputArgs p screenId ++ screenAudioArgs p audioDeviceId ++ screenOutputArgs rtmpUrl

/-- The `index.ts` copy of `startRtmpStream` differs from the `cameraRtmp.ts`
one only in the input block's framerate (`'60'`). -/
def indexCameraInputArgs (p : Platform) : List String :=
  ["-f", cameraInputFormat p, "-framerate", "60", "-video_size", "1280x720",
    "-i", cameraVideoInput p]

/-- The encoder argument vector built by `startRtmpStream` of `index.ts`. -/
def indexCameraArgs (p : Platform) (videoDeviceId : String) (audioDeviceId : Option String)
    (rtmpUrl : String) : List String :=
  indexCameraInputArgs p ++ cameraAudioArgs p audioDeviceId ++ cameraOutputArgs rtmpUrl

/-- A `{ success, message }` result record. -/
structure OpResult where
  success : Bool
  message : String
deriving DecidableEq

/-- Module-level mutable state of one streaming module: its process variable
(`ffmpegProcess` in `cameraRtmp.ts`, `ffmpegProcess2` in `ffmpegUtils.ts`)
and that module's `streamStatus`. -/
structure ModuleState where
  proc : Option Nat
  status : StreamStatus
deriving DecidableEq

/-- Outcome of a start call: the returned result, the updated module state,
and the argument vector handed to `spawn` (`none` when no subprocess was
spawned). -/
structure StartEffect where
  result : OpResult
  state : ModuleState
  spawned : Option (List String)
deriving DecidableEq

/-- Function `startRtmpStream` of `cameraRtmp.ts` as a state transition.  `now` is
`Date.now()` and `pid` the handle of the newly spawned subprocess; `spawn`
itself does not throw synchronously, encoder failures surface later through
the asynchronous `close` handler (which nulls the process variable). -/
def camStartStep (p : Platform) (videoDeviceId : String) (audioDeviceId : Option String)
    (rtmpUrl : String) (now pid : Nat) (s : ModuleState) : StartEffect :=
  if s.proc.isSome then
    ⟨⟨false, "Stream is already running"⟩, s, none⟩
  else
    ⟨⟨true, "Stream started successfully"⟩,
      ⟨some pid, ⟨true, rtmpUrl, now, ""⟩⟩,
      some (cameraArgs p videoDeviceId audioDeviceId rtmpUrl)⟩

/-- Function `stopRtmpStream` of `cameraRtmp.ts` as a state transition (`kill` on a
valid handle does not throw, so the catch branch is unreachable). -/
def camStopStep (s : ModuleState) : OpResult × ModuleState :=
  if s.proc.isNone then
    (⟨false, "No active screen stream to stop"⟩, s)
  else
    (⟨true, "Screen stream stopped successfully"⟩, ⟨none, initialStatus⟩)

/-- An entry of the list returned by `desktopCapturer.getSources`. -/
structure SourceInfo where
  id : String
  name : String
deriving DecidableEq

/-- Model of `Array.prototype.join(sep)`. -/
def joinWith (sep : String) : List String → String
  | [] => ""
  | [x] => x
  | x :: y :: xs => x ++ sep ++ joinWith sep (y :: xs)

/-- The "not found" message of `startScreenRtmpStream`. -/
def sourcesMessage (sources : List SourceInfo) : String :=
  "Screen source not found. Available sources: " ++
    joinWith ", " (sources.map fun s => s.id ++ " (" ++ s.name ++ ")")

/-- Source selection of `startScreenRtmpStream` (`ffmpegUtils.ts`): by id,
falling back to the first source whose name contains `'screen'`. -/
def selectScreenSourceUtils (sources : List SourceInfo) (screenId : String) :
    Option SourceInfo :=
  match sources.find? (fun s => s.id == screenId) with
  | some s => some s
  | none => sources.find? (fun s => containsSeq "screen".toList s.name.toList)

/-- Source selection of the `index.ts` copy of `startScreenRtmpStream`
(fallback name pattern `'Screen'`). -/
def selectScreenSourceMain (sources : List SourceInfo) (screenId : String) :
    Option SourceInfo :=
  match sources.find? (fun s => s.id == screenId) with
  | some s => some s
  | none => sources.find? (fun s => containsSeq "Screen".toList s.name.toList)

/-- Function `startScreenRtmpStream` of `ffmpegUtils.ts` as a state transition;
`sources` is the list `desktopCapturer.getSources` resolved to. -/
def screenStartStep (p : Platform) (sourceId : String) (audioDeviceId : Option String)
    (rtmpUrl : String) (screenId : String) (sources : List SourceInfo)
    (now pid : Nat) (s : ModuleState) : StartEffect :=
  if s.proc.isSome then
    ⟨⟨false, "Stream is already running"⟩, s, none⟩
  else
    match selectScreenSourceUtils sources screenId with
    | none => ⟨⟨false, sourcesMessage sources⟩, s, none⟩
    | some _ =>
      ⟨⟨true, "Screen stream started successfully"⟩,
        ⟨some pid, ⟨true, rtmpUrl, now, ""⟩⟩,
        some (screenArgs p audioDeviceId rtmpUrl screenId)⟩

/-- Function `stopRtmpScreenStream` of `ffmpegUtils.ts` as a state transition. -/
def screenStopStep (s : ModuleState) : OpResult × ModuleState :=
  if s.proc.isNone then
    (⟨false, "No active screen stream to stop"⟩, s)
  else
    (⟨true, "Screen stream stopped successfully"⟩, ⟨none, initialStatus⟩)

/-- Mutable state of the `index.ts` main module: `ffmpegProcess`,
`ffmpegProcess2` and the single `streamStatus` record both stream kinds
share. -/
structure MainState where
  proc : Option Nat
  proc2 : Option Nat
  status : StreamStatus
deriving DecidableEq

/-- Outcome of a start call of the `index.ts` module. -/
structure MainEffect where
  result : OpResult
  state : MainState
  spawned : Option (List String)
deriving DecidableEq

/-- Function `startRtmpStream` of `index.ts` as a state transition. -/
def mainStartCamera (p : Platform) (videoDeviceId : String) (audioDeviceId : Option String)
    (rtmpUrl : String) (now pid : Nat) (s : MainState) : MainEffect :=
  if s.proc.isSome then
    ⟨⟨false, "Stream is already running"⟩, s, none⟩
  else
    ⟨⟨true, "Stream started successfully"⟩,
      { s with proc := some pid, status := ⟨true, rtmpUrl, now, ""⟩ },
      some (indexCameraArgs p videoDeviceId audioDeviceId rtmpUrl)⟩

/-- Function `startScreenRtmpStream` of `index.ts` as a state transition. -/
def mainStartScreen (p : Platform) (sourceId : String) (audioDeviceId : Option String)
    (rtmpUrl : String) (screenId : String) (sources : List SourceInfo)
    (now pid : Nat) (s : MainState) : MainEffect :=
  if s.proc2.isSome then
    ⟨⟨false, "Stream is already running"⟩, s, none⟩
  else
    match selectScreenSourceMain sources screenId with
    | none => ⟨⟨false, sourcesMessage sources⟩, s, none⟩
    | some _ =>
      ⟨⟨true, "Screen stream started successfully"⟩,
        { s with proc2 := some pid, status := ⟨true, rtmpUrl, now, ""⟩ },
        some (screenArgs p audioDeviceId rtmpUrl screenId)⟩

/-- Function `stopRtmpStream` of `index.ts` as a state transition. -/
def mainStopCamera (s : MainState) : OpResult × MainState :=
  if s.proc.isNone then
    (⟨false, "No active stream to stop"⟩, s)
  else
    (⟨true, "Stream stopped successfully"⟩,
      { s with proc := none, status := initialStatus })

/-- Function `stopRtmpScreenStream` of `index.ts` as a state transition. -/
def mainStopScreen (s : MainState) : OpResult × MainState :=
  if s.proc2.isNone then
    (⟨false, "No active screen stream to stop"⟩, s)
  else
    (⟨true, "Screen stream stopped successfully"⟩,
      { s with proc2 := none, status := initialStatus })

/-- The `get-rtmp-status` IPC handler of `index.ts`: returns the shared
`streamStatus` record. -/
def getRtmpStatusMain (s : MainState) : StreamStatus := s.status

/-- Transcript for the High-profile scenario: one device reporting frame
rates 24, 30 and 60. -/
def highProfileTranscript : String :=
  "[0] FaceTime HD Camera\n1280x720@[24.0 24.0]fps\n1280x720@[30.0 30.0]fps\n1280x720@[60.0 60.0]fps"

/-- Transcript where the device reports frame rates 30 and 120. -/
def ceilingTranscript : String :=
  "[0] FaceTime HD Camera\n1280x720@[30.0 30.0]fps\n1280x720@[120.0 120.0]fps"

/-- Transcript whose mode lines yield 30.0, 30.0 and 59.94. -/
def dedupTranscript : String :=
  "[0] Cam\n640x480@[30.0 30.0]fps\n640x480@[30.0 30.0]fps\n640x480@[59.94 60.0]fps"

/-- A concrete device-header line. -/
def c3HeaderLine : List Char := "[0] Cam".toList

/-- A concrete header-free tail: duplicated 30.0 mode lines, an unrecognized
line, and a 59.94 mode line. -/
def c3PostLines : List (List Char) :=
  ["640x480@[30.0 30.0]fps".toList, "640x480@[30.0 30.0]fps".toList,
    "some unrecognized diagnostic text".toList, "640x480@[59.94 60.0]fps".toList]

/-! ### Association-list lemmas -/

theorem lookupEntry_setEntry_self (m : List (List Char × List ℚ)) (k : List Char)
    (v : List ℚ) : lookupEntry (setEntry m k v) k = some v := by
  induction m with
  | nil => simp [setEntry, lookupEntry]
  | cons e rest ih =>
    obtain ⟨k', v'⟩ := e
    by_cases h : k' = k
    · simp [setEntry, lookupEntry, h]
    · simp [setEntry, lookupEntry, h, ih]

theorem lookupEntry_setEntry_ne (m : List (List Char × List ℚ)) (k k' : List Char)
    (v : List ℚ) (h : k' ≠ k) :
    lookupEntry (setEntry m k v) k' = lookupEntry m k' := by
  have h' : ¬ k = k' := fun hh => h hh.symm
  induction m with
  | nil => simp [setEntry, lookupEntry, h']
  | cons e rest ih =>
    obtain ⟨k'', v''⟩ := e
    by_cases h2 : k'' = k
    · subst h2
      simp [setEntry, lookupEntry, h']
    · by_cases h3 : k'' = k'
      · simp [setEntry, lookupEntry, h2, h3, h]
      · simp [setEntry, lookupEntry, h2, h3, ih]

theorem mem_setEntry {m : List (List Char × List ℚ)} {k : List Char} {v : List ℚ}
    {e : List Char × List ℚ} (h : e ∈ setEntry m k v) : e = (k, v) ∨ e ∈ m := by
  induction m with
  | nil => simpa [setEntry] using h
  | cons e' rest ih =>
    obtain ⟨k', v'⟩ := e'
    by_cases h2 : k' = k
    · simp [setEntry, h2] at h
      rcases h with h | h
      · exact Or.inl h
      · exact Or.inr (List.mem_cons_of_mem _ h)
    · simp [setEntry, h2] at h
      rcases h with h | h
      · exact Or.inr (by simp [h])
      · rcases ih h with h3 | h3
        · exact Or.inl h3
        · exact Or.inr (List.mem_cons_of_mem _ h3)

theorem lookupEntry_mem {m : List (List Char × List ℚ)} {k : List Char} {v : List ℚ}
    (h : lookupEntry m k = some v) : (k, v) ∈ m := by
  induction m with
  | nil => simp [lookupEntry] at h
  | cons e rest ih =>
    obtain ⟨k', v'⟩ := e
    by_cases h2 : k' = k
    · subst h2
      simp [lookupEntry] at h
      simp [h]
    · simp [lookupEntry, h2] at h
      exact List.mem_cons_of_mem _ (ih h)

/-! ### Lemmas on the descending sort -/

theorem insertDesc_ne_nil (x : ℚ) (l : List ℚ) : insertDesc x l ≠ [] := by
  cases l with
  | nil => simp [insertDesc]
  | cons y ys =>
    by_cases h : y ≤ x <;> simp [insertDesc, h]

theorem sortDesc_eq_nil_iff (l : List ℚ) : sortDesc l = [] ↔ l = [] := by
  cases l with
  | nil => simp [sortDesc]
  | cons a as =>
    simp only [sortDesc, List.foldr_cons]
    exact ⟨fun h => absurd h (insertDesc_ne_nil a _), fun h => by simp at h⟩

theorem headD_insertDesc_nil (x d : ℚ) : (insertDesc x []).headD d = x := rfl

theorem headD_insertDesc_cons (x y d : ℚ) (ys : List ℚ) :
    (insertDesc x (y :: ys)).headD d = max x y := by
  by_cases h : y ≤ x
  · simp [insertDesc, h, max_eq_left h]
  · simp [insertDesc, h, max_eq_right (le_of_not_le h)]

theorem le_sortDesc_headD : ∀ (l : List ℚ) (r : ℚ), r ∈ l → r ≤ (sortDesc l).headD 0 := by
  intro l
  induction l with
  | nil => intro r h; cases h
  | cons a as ih =>
    intro r h
    show r ≤ (insertDesc a (sortDesc as)).headD 0
    cases hsd : sortDesc as with
    | nil =>
      have has : as = [] := (sortDesc_eq_nil_iff as).1 hsd
      subst has
      rw [headD_insertDesc_nil]
      have hra : r = a := by simpa using h
      rw [hra]
    | cons y ys =>
      rw [headD_insertDesc_cons]
      rcases List.mem_cons.1 h with h1 | h2
      · exact h1 ▸ le_max_left a y
      · have hr := ih r h2
        rw [hsd] at hr
        simp only [List.headD_cons] at hr
        exact le_trans hr (le_max_right a y)

theorem sortDesc_headD_mem : ∀ (l : List ℚ), l ≠ [] → (sortDesc l).headD 0 ∈ l := by
  intro l
  induction l with
  | nil => intro h; exact absurd rfl h
  | cons a as ih =>
    intro _
    show (insertDesc a (sortDesc as)).headD 0 ∈ a :: as
    cases hsd : sortDesc as with
    | nil =>
      rw [headD_insertDesc_nil]
      exact List.mem_cons_self a as
    | cons y ys =>
      rw [headD_insertDesc_cons]
      have has : as ≠ [] := by
        intro hh
        rw [hh] at hsd
        simp [sortDesc] at hsd
      have hy : y ∈ as := by
        have := ih has
        rw [hsd] at this
        simpa using this
      rcases le_total a y with h | h
      · rw [max_eq_right h]
        exact List.mem_cons_of_mem _ hy
      · rw [max_eq_left h]
        exact List.mem_cons_self a as

/-! ### Lemmas on the selection loop of `getBestFramerate` -/

theorem bestLoop_eq_findRates (m : List (List Char × List ℚ)) (fid : List Char) :
    bestLoop m fid = (findRates m fid).map (fun l => (sortDesc l).headD 0) := by
  induction m with
  | nil => rfl
  | cons e rest ih =>
    obtain ⟨d, rates⟩ := e
    by_cases h : deviceMatches d fid = true
    · by_cases h2 : rates.isEmpty = true
      · simp [bestLoop, findRates, h, h2, ih]
      · simp [bestLoop, findRates, h, h2]
    · simp [bestLoop, findRates, h, ih]

theorem findRates_ne_nil {m : List (List Char × List ℚ)} {fid : List Char}
    {l : List ℚ} (h : findRates m fid = some l) : l ≠ [] := by
  induction m with
  | nil => simp [findRates] at h
  | cons e rest ih =>
    obtain ⟨d, rates⟩ := e
    by_cases h1 : deviceMatches d fid = true
    · by_cases h2 : rates.isEmpty = true
      · rw [findRates, if_pos h1, if_pos h2] at h
        exact ih h
      · rw [findRates, if_pos h1, if_neg h2] at h
        cases h
        simpa using h2
    · rw [findRates, if_neg h1] at h
      exact ih h

theorem bestLoop_none_of_empty (m : List (List Char × List ℚ)) (fid : List Char)
    (h : ∀ e ∈ m, deviceMatches e.1 fid = true → e.2 = []) :
    bestLoop m fid = none := by
  induction m with
  | nil => rfl
  | cons e rest ih =>
    obtain ⟨d, rates⟩ := e
    have ih2 := ih (fun e he hm => h e (List.mem_cons_of_mem _ he) hm)
    by_cases h1 : deviceMatches d fid = true
    · have : rates = [] := h (d, rates) (List.mem_cons_self _ _) h1
      subst this
      simp [bestLoop, h1, ih2]
    · simp [bestLoop, h1, ih2]

/-! ### Lemmas on the darwin parser fold -/

theorem stepDarwin_header (st : PState) (l ds name : List Char)
    (h : headerScan (trimChars l) = some (ds, name)) :
    stepDarwin st l
      = ⟨setEntry st.map (ds ++ ':' :: ' ' :: name) [], ds ++ ':' :: ' ' :: name⟩ := by
  simp [stepDarwin, h]

theorem stepDarwin_inert (st : PState) (l : List Char)
    (h1 : headerScan (trimChars l) = none) (h2 : modeScan (trimChars l) = none) :
    stepDarwin st l = st := by
  simp [stepDarwin, h1, h2]

theorem stepDarwin_noCurrent (m : List (List Char × List ℚ)) (l : List Char)
    (h : headerScan (trimChars l) = none) :
    stepDarwin ⟨m, []⟩ l = ⟨m, []⟩ := by
  simp only [stepDarwin, h]
  cases modeScan (trimChars l) <;> simp

theorem foldl_stepDarwin_noHeader (lines : List (List Char)) :
    ∀ m : List (List Char × List ℚ),
      (∀ l ∈ lines, headerScan (trimChars l) = none) →
      List.foldl stepDarwin ⟨m, []⟩ lines = ⟨m, []⟩ := by
  induction lines with
  | nil => intro m _; rfl
  | cons l rest ih =>
    intro m h
    rw [List.foldl_cons, stepDarwin_noCurrent m l (h l (List.mem_cons_self _ _))]
    exact ih m (fun x hx => h x (List.mem_cons_of_mem _ hx))

theorem foldl_stepDarwin_headerFree (post : List (List Char)) :
    ∀ st : PState, st.current ≠ [] →
      (∀ l ∈ post, headerScan (trimChars l) = none) →
      List.foldl stepDarwin st post = ⟨attachFold st.map st.current post, st.current⟩ := by
  induction post with
  | nil =>
    intro st _ _
    cases st
    rfl
  | cons l rest ih =>
    intro st hcur h
    have hl : headerScan (trimChars l) = none := h l (List.mem_cons_self _ _)
    have hrest : ∀ x ∈ rest, headerScan (trimChars x) = none :=
      fun x hx => h x (List.mem_cons_of_mem _ hx)
    rw [List.foldl_cons]
    have hstep : stepDarwin st l = ⟨attachStep st.map st.current l, st.current⟩ := by
      simp only [stepDarwin, attachStep, hl]
      cases modeScan (trimChars l) with
      | none => cases st; rfl
      | some r => simp [hcur]
    rw [hstep, ih ⟨attachStep st.map st.current l, st.current⟩ hcur hrest]
    simp [attachFold, List.foldl_cons]

theorem attachFold_lookup (post : List (List Char)) :
    ∀ (m : List (List Char × List ℚ)) (key : List Char) (acc : List ℚ),
      lookupEntry m key = some acc →
      lookupEntry (attachFold m key post) key = some (dedupFrom acc post)
      ∧ ∀ k, k ≠ key → lookupEntry (attachFold m key post) k = lookupEntry m k := by
  induction post with
  | nil =>
    intro m key acc h
    exact ⟨h ▸ rfl, fun _ _ => rfl⟩
  | cons l rest ih =>
    intro m key acc h
    have hfold : attachFold m key (l :: rest) = attachFold (attachStep m key l) key rest := by
      simp [attachFold, List.foldl_cons]
    have hdedup : dedupFrom acc (l :: rest)
        = dedupFrom (match modeScan (trimChars l) with
            | some r => if r ∈ acc then acc else acc ++ [r]
            | none => acc) rest := by
      simp [dedupFrom, List.foldl_cons]
    cases hm : modeScan (trimChars l) with
    | none =>
      have hstep : attachStep m key l = m := by simp [attachStep, hm]
      rw [hfold, hstep, hdedup]
      simp only [hm]
      exact ih m key acc h
    | some r =>
      by_cases hr : r ∈ acc
      · have hstep : attachStep m key l = m := by
          simp [attachStep, hm, attachRate, h, hr]
        rw [hfold, hstep, hdedup]
        simp only [hm, if_pos hr]
        exact ih m key acc h
      · have hstep : attachStep m key l = setEntry m key (acc ++ [r]) := by
          simp [attachStep, hm, attachRate, h, hr]
        rw [hfold, hstep, hdedup]
        simp only [hm, if_neg hr]
        have hlook : lookupEntry (setEntry m key (acc ++ [r])) key = some (acc ++ [r]) :=
          lookupEntry_setEntry_self m key (acc ++ [r])
        obtain ⟨ha, hb⟩ := ih (setEntry m key (acc ++ [r])) key (acc ++ [r]) hlook
        refine ⟨ha, fun k hk => ?_⟩
        rw [hb k hk, lookupEntry_setEntry_ne m key k (acc ++ [r]) hk]

theorem nodup_append_singleton {l : List ℚ} {a : ℚ} (h1 : l.Nodup) (h2 : a ∉ l) :
    (l ++ [a]).Nodup := by
  rw [List.nodup_append]
  refine ⟨h1, List.nodup_singleton a, fun x hx hxa => ?_⟩
  simp only [List.mem_singleton] at hxa
  exact h2 (hxa ▸ hx)

theorem attachRate_nodup {m : List (List Char × List ℚ)} {key : List Char} {r : ℚ}
    (h : ∀ e ∈ m, e.2.Nodup) : ∀ e ∈ attachRate m key r, e.2.Nodup := by
  intro e he
  unfold attachRate at he
  by_cases hr : r ∈ (lookupEntry m key).getD []
  · rw [if_pos hr] at he
    exact h e he
  · rw [if_neg hr] at he
    rcases mem_setEntry he with h1 | h2
    · subst h1
      show ((lookupEntry m key).getD [] ++ [r]).Nodup
      cases hk : lookupEntry m key with
      | none => simp [hk]
      | some v =>
        rw [hk] at hr
        simp only [Option.getD_some] at hr ⊢
        exact nodup_append_singleton (h _ (lookupEntry_mem hk)) hr
    · exact h e h2

theorem stepDarwin_nodup {st : PState} (h : ∀ e ∈ st.map, e.2.Nodup) (l : List Char) :
    ∀ e ∈ (stepDarwin st l).map, e.2.Nodup := by
  intro e he
  cases hh : headerScan (trimChars l) with
  | some pr =>
    obtain ⟨ds, name⟩ := pr
    rw [stepDarwin_header st l ds name hh] at he
    rcases mem_setEntry he with h1 | h2
    · subst h1; exact List.nodup_nil
    · exact h e h2
  | none =>
    cases hm : modeScan (trimChars l) with
    | none =>
      rw [stepDarwin_inert st l hh hm] at he
      exact h e he
    | some r =>
      have hstep : stepDarwin st l
          = if st.current ≠ [] then ⟨attachRate st.map st.current r, st.current⟩ else st := by
        simp [stepDarwin, hh, hm]
      rw [hstep] at he
      by_cases hc : st.current ≠ []
      · rw [if_pos hc] at he
        exact attachRate_nodup h e he
      · rw [if_neg hc] at he
        exact h e he

theorem foldl_stepDarwin_nodup (lines : List (List Char)) :
    ∀ st : PState, (∀ e ∈ st.map, e.2.Nodup) →
      ∀ e ∈ (List.foldl stepDarwin st lines).map, e.2.Nodup := by
  induction lines with
  | nil => intro st h; exact h
  | cons l rest ih =>
    intro st h
    rw [List.foldl_cons]
    exact ih (stepDarwin st l) (stepDarwin_nodup h l)

/-! ### Lemmas on the win32 parser fold -/

theorem stepWin32_noCurrent (m : List (List Char × List ℚ)) (l : List Char) :
    stepWin32 ⟨m, []⟩ l = ⟨m, []⟩ := by
  unfold stepWin32
  by_cases h : containsSeq fpsPat (trimChars l) = true
  · simp only [h, if_true]
    cases fpsScan (trimChars l) <;> simp
  · simp [h]

theorem foldl_stepWin32_const (lines : List (List Char)) :
    ∀ m : List (List Char × List ℚ), List.foldl stepWin32 ⟨m, []⟩ lines = ⟨m, []⟩ := by
  induction lines with
  | nil => intro m; rfl
  | cons l rest ih =>
    intro m
    rw [List.foldl_cons, stepWin32_noCurrent]
    exact ih m

/-! ### Lemmas on the screen-id scanners -/

theorem takeWhile_dropWhile_all_append (p : Char → Bool) (l₁ : List Char) (c : Char)
    (l₂ : List Char) (h1 : ∀ x ∈ l₁, p x = true) (h2 : p c = false) :
    (l₁ ++ c :: l₂).takeWhile p = l₁ ∧ (l₁ ++ c :: l₂).dropWhile p = c :: l₂ := by
  induction l₁ with
  | nil => simp [List.takeWhile_cons, List.dropWhile_cons, h2]
  | cons x xs ih =>
    have hx : p x = true := h1 x (List.mem_cons_self _ _)
    have := ih (fun y hy => h1 y (List.mem_cons_of_mem _ hy))
    simp [List.takeWhile_cons, List.dropWhile_cons, hx, this.1, this.2]

theorem isPrefixSeq_self_append : ∀ (l x : List Char), isPrefixSeq l (l ++ x) = true
  | [], _ => rfl
  | c :: cs, x => by simp [isPrefixSeq, isPrefixSeq_self_append cs x]

theorem screenNumHere_at (ds rest : List Char) (hne : ds ≠ [])
    (hdig : ∀ c ∈ ds, c.isDigit = true) :
    screenNumHere (screenColonPat ++ (ds ++ ':' :: rest)) = some ds := by
  have htake : (screenColonPat ++ (ds ++ ':' :: rest)).take 7 = screenColonPat :=
    List.take_left' rfl
  have hdrop : (screenColonPat ++ (ds ++ ':' :: rest)).drop 7 = ds ++ ':' :: rest :=
    List.drop_left' rfl
  have htw := (takeWhile_dropWhile_all_append Char.isDigit ds ':' rest hdig (by decide)).1
  have hempty : ds.isEmpty = false := by
    cases ds with
    | nil => exact absurd rfl hne
    | cons a as => rfl
  simp [screenNumHere, htake, hdrop, htw, hempty]

theorem screenNumScan_at_start (ds rest : List Char) (hne : ds ≠ [])
    (hdig : ∀ c ∈ ds, c.isDigit = true) :
    screenNumScan (screenColonPat ++ (ds ++ ':' :: rest)) = some ds := by
  have hh := screenNumHere_at ds rest hne hdig
  have hcons : screenColonPat ++ (ds ++ ':' :: rest)
      = 's' :: ('c' :: 'r' :: 'e' :: 'e' :: 'n' :: ':' :: (ds ++ ':' :: rest)) := rfl
  rw [hcons] at hh ⊢
  simp [screenNumScan, hh]

theorem screenColonNumHere_at (ds rest : List Char) (hne : ds ≠ [])
    (hdig : ∀ c ∈ ds, c.isDigit = true) :
    screenColonNumHere (screenColonPat ++ (ds ++ ':' :: rest)) = some ds := by
  have htake : (screenColonPat ++ (ds ++ ':' :: rest)).take 7 = screenColonPat :=
    List.take_left' rfl
  have hdrop : (screenColonPat ++ (ds ++ ':' :: rest)).drop 7 = ds ++ ':' :: rest :=
    List.drop_left' rfl
  have htw := takeWhile_dropWhile_all_append Char.isDigit ds ':' rest hdig (by decide)
  have hempty : ds.isEmpty = false := by
    cases ds with
    | nil => exact absurd rfl hne
    | cons a as => rfl
  simp [screenColonNumHere, htake, hdrop, htw.1, htw.2, hempty]

theorem screenColonNumScan_at_start (ds rest : List Char) (hne : ds ≠ [])
    (hdig : ∀ c ∈ ds, c.isDigit = true) :
    screenColonNumScan (screenColonPat ++ (ds ++ ':' :: rest)) = some ds := by
  have hh := screenColonNumHere_at ds rest hne hdig
  have hcons : screenColonPat ++ (ds ++ ':' :: rest)
      = 's' :: ('c' :: 'r' :: 'e' :: 'e' :: 'n' :: ':' :: (ds ++ ':' :: rest)) := rfl
  rw [hcons] at hh ⊢
  simp [screenColonNumScan, hh]

theorem takeWhile_digit_nil_of_no_digit (l : List Char) (n : Nat)
    (h : ∀ c ∈ l, c.isDigit = false) :
    (l.drop n).takeWhile Char.isDigit = [] := by
  cases hd : l.drop n with
  | nil => rfl
  | cons y ys =>
    have hy : y ∈ l := List.drop_subset n l (hd ▸ List.mem_cons_self y ys)
    simp [List.takeWhile_cons, h y hy]

theorem screenNumScan_no_digit : ∀ l : List Char, (∀ c ∈ l, c.isDigit = false) →
    screenNumScan l = none
  | [], _ => rfl
  | c :: cs, h => by
    have hnil := takeWhile_digit_nil_of_no_digit (c :: cs) 7 h
    have hhere : screenNumHere (c :: cs) = none := by
      by_cases ht : (c :: cs).take 7 = screenColonPat
      · simp only [screenNumHere, ht, hnil]
        simp
      · simp only [screenNumHere]
        rw [if_neg ht]
    have htail := screenNumScan_no_digit cs (fun x hx => h x (List.mem_cons_of_mem c hx))
    simp [screenNumScan, hhere, htail]

theorem screenColonNumScan_no_digit : ∀ l : List Char, (∀ c ∈ l, c.isDigit = false) →
    screenColonNumScan l = none
  | [], _ => rfl
  | c :: cs, h => by
    have hnil := takeWhile_digit_nil_of_no_digit (c :: cs) 7 h
    have hhere : screenColonNumHere (c :: cs) = none := by
      by_cases ht : (c :: cs).take 7 = screenColonPat
      · simp only [screenColonNumHere, ht, hnil]
        simp
      · simp only [screenColonNumHere]
        rw [if_neg ht]
    have htail := screenColonNumScan_no_digit cs (fun x hx => h x (List.mem_cons_of_mem c hx))
    simp [screenColonNumScan, hhere, htail]

theorem allDigitsTest_false_of_no_digit (l : List Char) (h : ∀ c ∈ l, c.isDigit = false) :
    allDigitsTest l = false := by
  cases l with
  | nil => rfl
  | cons c cs =>
    simp [allDigitsTest, List.all_cons, h c (List.mem_cons_self _ _)]

theorem allDigitsTest_screenColon (x : List Char) :
    allDigitsTest (screenColonPat ++ x) = false := by
  have hs : Char.isDigit 's' = false := rfl
  simp [allDigitsTest, screenColonPat, List.all_cons, hs]

theorem getLast?_append_right (l₁ l₂ : List String) (x : String)
    (h : l₂.getLast? = some x) : (l₁ ++ l₂).getLast? = some x := by
  have hne : l₂ ≠ [] := by
    rintro rfl
    simp at h
  rw [List.getLast?_append_of_ne_nil l₁ hne, h]

/-! ### Claim theorems -/

/-- Claim C1: For every fixed platform and identical inputs the stream-start
argument builders are deterministic (pure functions of their inputs) and
produce the specified order: input-format and device-specific flags first,
then the audio block present exactly when the optional audio device id is
supplied (truthy), then the output/encoder flags, with the sink RTMP url as
the last element of the vector.  Holds for both `startRtmpStream`
(`cameraRtmp.ts`) and `startScreenRtmpStream` (`ffmpegUtils.ts`). -/
theorem c1_argument_vector_order (p : Platform) (videoDeviceId : String)
    (audioDeviceId : Option String) (rtmpUrl screenId : String) :
    cameraArgs p videoDeviceId audioDeviceId rtmpUrl
        = cameraInputArgs p ++ cameraAudioArgs p audioDeviceId ++ cameraOutputArgs rtmpUrl
      ∧ (cameraAudioArgs p audioDeviceId ≠ [] ↔ optTruthy audioDeviceId = true)
      ∧ (cameraArgs p videoDeviceId audioDeviceId rtmpUrl).getLast? = some rtmpUrl
      ∧ screenArgs p audioDeviceId rtmpUrl screenId
          = screenInputArgs p screenId ++ screenAudioArgs p audioDeviceId
              ++ screenOutputArgs rtmpUrl
      ∧ (screenAudioArgs p audioDeviceId ≠ [] ↔ optTruthy audioDeviceId = true)
      ∧ (screenArgs p audioDeviceId rtmpUrl screenId).getLast? = some rtmpUrl := by
  refine ⟨rfl, ?_, ?_, rfl, ?_, ?_⟩
  · by_cases h : optTruthy audioDeviceId = true
    · cases p <;> simp [cameraAudioArgs, h]
    · simp [cameraAudioArgs, h]
  · exact getLast?_append_right _ _ _ rfl
  · by_cases h : optTruthy audioDeviceId = true
    · cases p <;> simp [screenAudioArgs, h]
    · simp [screenAudioArgs, h]
  · exact getLast?_append_right _ _ _ rfl

/-- Claim C2, amended: The resolved frame rate is simply the highest frame
rate reported for the matched device — `getBestFramerate` applies no
quality-profile ceiling (the source has no quality-profile parameter at
all).  In particular a device reporting `{24, 30, 60}` resolves to `60`,
which agrees with the High-profile scenario of the claim. -/
theorem c2_highest_rate_resolved :
    (∀ (p : Platform) (output deviceId : String) (l : List ℚ),
        findRates (parseAvailableFramerates p output) (resolveFfmpegId p deviceId)
            = some l →
        getBestFramerate p output deviceId ∈ l
          ∧ ∀ r ∈ l, r ≤ getBestFramerate p output deviceId)
    ∧ getBestFramerate .darwin highProfileTranscript "0" = 60 := by
  constructor
  · intro p output deviceId l h
    have hb : getBestFramerate p output deviceId = (sortDesc l).headD 0 := by
      simp only [getBestFramerate, bestLoop_eq_findRates, h, Option.map_some']
    rw [hb]
    exact ⟨sortDesc_headD_mem l (findRates_ne_nil h), fun r hr => le_sortDesc_headD l r hr⟩
  · decide

/-- Claim C2, counterexample: The claim as stated is false: under the High
profile the ceiling is 60, and for a device reporting `{30, 120}` the
highest reported rate not exceeding the ceiling would be `30`; the code
resolves `120`, exceeding the ceiling of both profiles. -/
theorem c2_ceiling_counterexample :
    getBestFramerate .darwin ceilingTranscript "0" = 120
    ∧ findRates (parseAvailableFramerates .darwin ceilingTranscript)
        (resolveFfmpegId .darwin "0") = some [30, 120]
    ∧ ¬ getBestFramerate .darwin ceilingTranscript "0" ≤ 60
    ∧ ¬ getBestFramerate .darwin ceilingTranscript "0" ≤ 30 := by
  refine ⟨by decide, by decide, by decide, by decide⟩

/-- Witness for `c2_highest_rate_resolved`: the `{24, 30, 60}` device of the
High-profile scenario. -/
theorem c2_highest_rate_resolved_witness :
    findRates (parseAvailableFramerates .darwin highProfileTranscript)
        (resolveFfmpegId .darwin "0") = some [24, 30, 60]
    ∧ getBestFramerate .darwin highProfileTranscript "0" ∈ [(24 : ℚ), 30, 60] :=
  ⟨by decide,
    (c2_highest_rate_resolved.1 .darwin highProfileTranscript "0" [24, 30, 60]
      (by decide)).1⟩

/-- Claim C4: For every device id for which the parsed capability snapshot
holds no frame rates (in particular for a completely empty snapshot),
`getBestFramerate` still returns a value — the fixed platform default: 60 on
darwin, 30 on win32 and 30 on every other platform. -/
theorem c4_default_framerate_fallback :
    (∀ (p : Platform) (output deviceId : String),
        (∀ e ∈ parseAvailableFramerates p output,
            deviceMatches e.1 (resolveFfmpegId p deviceId) = true → e.2 = []) →
        getBestFramerate p output deviceId = platformDefault p)
    ∧ platformDefault .darwin = 60 ∧ platformDefault .win32 = 30
    ∧ platformDefault .linux = 30 ∧ platformDefault .other = 30 := by
  refine ⟨?_, rfl, rfl, rfl, rfl⟩
  intro p output deviceId h
  simp only [getBestFramerate, bestLoop_none_of_empty _ _ h]

/-- Witness for `c4_default_framerate_fallback`: an empty transcript on
darwin yields the default 60. -/
theorem c4_default_framerate_fallback_witness :
    getBestFramerate .darwin "" "FaceTime" = 60 :=
  c4_default_framerate_fallback.1 .darwin "" "FaceTime" (by decide)

/-- Claim C10: On win32 the parser's fps branch requires a current-device
cursor that no win32 branch ever sets, so `parseAvailableFramerates` returns
the empty map on every transcript, and `getBestFramerate` returns the win32
default 30 for every device id. -/
theorem c10_win32_parser_inert :
    (∀ output : String, parseAvailableFramerates .win32 output = [])
    ∧ ∀ output deviceId : String, getBestFramerate .win32 output deviceId = 30 := by
  have hparse : ∀ output : String, parseAvailableFramerates .win32 output = [] := by
    intro output
    show (List.foldl (parseStep .win32) initPState (splitNl output.toList)).map = []
    have he : List.foldl (parseStep .win32) initPState (splitNl output.toList)
        = (⟨[], []⟩ : PState) :=
      foldl_stepWin32_const (splitNl output.toList) []
    rw [he]
  refine ⟨hparse, fun output deviceId => ?_⟩
  simp only [getBestFramerate, hparse]
  rfl

/-- Claim C3: The darwin capability parser scans lines in order with a
current-device cursor: (1) with no device-header line nothing is ever
recorded, so mode lines before any header attach nothing; (2) a line
matching neither pattern leaves the parser state unchanged — unrecognized
lines are ignored, not errors; (3) every recorded frame-rate list is
duplicate-free; (4) after a header, the following header-free lines attach
their deduplicated mode rates only to that header's record and leave every
other record's lookup unchanged; (5) concretely, mode lines yielding
30.0, 30.0, 59.94 produce the list `{30.0, 59.94}`. -/
theorem c3_parser_cursor_semantics :
    (∀ output : String,
        (∀ l ∈ splitNl output.toList, headerScan (trimChars l) = none) →
        parseAvailableFramerates .darwin output = [])
    ∧ (∀ (st : PState) (l : List Char),
        headerScan (trimChars l) = none → modeScan (trimChars l) = none →
        stepDarwin st l = st)
    ∧ (∀ (output : String) (e : List Char × List ℚ),
        e ∈ parseAvailableFramerates .darwin output → e.2.Nodup)
    ∧ (∀ (pre post : List (List Char)) (hl ds name : List Char),
        headerScan (trimChars hl) = some (ds, name) →
        (∀ l ∈ post, headerScan (trimChars l) = none) →
        lookupEntry (List.foldl stepDarwin initPState (pre ++ hl :: post)).map
            (ds ++ ':' :: ' ' :: name) = some (modeRatesDedup post)
          ∧ ∀ k, k ≠ ds ++ ':' :: ' ' :: name →
              lookupEntry (List.foldl stepDarwin initPState (pre ++ hl :: post)).map k
                = lookupEntry (List.foldl stepDarwin initPState pre).map k)
    ∧ parseAvailableFramerates .darwin dedupTranscript
        = [("0: Cam".toList, [30, mkRat 5994 100])] := by
  refine ⟨?_, ?_, ?_, ?_, by decide⟩
  · intro output h
    show (List.foldl (parseStep .darwin) initPState (splitNl output.toList)).map = []
    have he : List.foldl (parseStep .darwin) initPState (splitNl output.toList)
        = List.foldl stepDarwin ⟨[], []⟩ (splitNl output.toList) := rfl
    rw [he, foldl_stepDarwin_noHeader (splitNl output.toList) [] h]
  · exact fun st l h1 h2 => stepDarwin_inert st l h1 h2
  · intro output e he
    exact foldl_stepDarwin_nodup (splitNl output.toList) initPState
      (fun e' he' => by cases he') e he
  · intro pre post hl ds name hh hpost
    have hsplit : List.foldl stepDarwin initPState (pre ++ hl :: post)
        = List.foldl stepDarwin
            (stepDarwin (List.foldl stepDarwin initPState pre) hl) post := by
      rw [List.foldl_append, List.foldl_cons]
    have hstep := stepDarwin_header (List.foldl stepDarwin initPState pre) hl ds name hh
    have hkey : (ds ++ ':' :: ' ' :: name) ≠ [] := by cases ds <;> simp
    have hfree := foldl_stepDarwin_headerFree post
      ⟨setEntry (List.foldl stepDarwin initPState pre).map (ds ++ ':' :: ' ' :: name) [],
        ds ++ ':' :: ' ' :: name⟩ hkey hpost
    have hlook0 := lookupEntry_setEntry_self
      (List.foldl stepDarwin initPState pre).map (ds ++ ':' :: ' ' :: name) []
    obtain ⟨ha, hb⟩ := attachFold_lookup post
      (setEntry (List.foldl stepDarwin initPState pre).map (ds ++ ':' :: ' ' :: name) [])
      (ds ++ ':' :: ' ' :: name) [] hlook0
    rw [hsplit, hstep, hfree]
    exact ⟨ha, fun k hk => by rw [hb k hk, lookupEntry_setEntry_ne _ _ _ _ hk]⟩

/-- Witness for `c3_parser_cursor_semantics`: a concrete header followed by
duplicated 30.0 mode lines, an unrecognized line and a 59.94 mode line. -/
theorem c3_parser_cursor_semantics_witness :
    headerScan (trimChars c3HeaderLine) = some (['0'], "Cam".toList)
    ∧ lookupEntry (List.foldl stepDarwin initPState ([] ++ c3HeaderLine :: c3PostLines)).map
        (['0'] ++ ':' :: ' ' :: "Cam".toList) = some (modeRatesDedup c3PostLines)
    ∧ modeRatesDedup c3PostLines = [30, mkRat 5994 100] :=
  ⟨by decide,
    (c3_parser_cursor_semantics.2.2.2.1 [] c3PostLines c3HeaderLine ['0'] "Cam".toList
      (by decide) (by decide)).1,
    by decide⟩

/-- Claim C5: If a stream of the same kind is already running (its process
variable is non-null), a further start call fails with the already-streaming
message without transitioning: it spawns nothing and leaves state unchanged;
consequently two starts from an idle state yield exactly one success and one
already-streaming failure.  Holds for `startRtmpStream` (`cameraRtmp.ts`)
and `startScreenRtmpStream` (`ffmpegUtils.ts`). -/
theorem c5_already_streaming_guard :
    (∀ (p : Platform) (v : String) (a : Option String) (url : String) (now pid : Nat)
        (s : ModuleState), s.proc.isSome = true →
        camStartStep p v a url now pid s = ⟨⟨false, "Stream is already running"⟩, s, none⟩)
    ∧ (∀ (p : Platform) (sid : String) (a : Option String) (url scr : String)
        (sources : List SourceInfo) (now pid : Nat) (s : ModuleState),
        s.proc.isSome = true →
        screenStartStep p sid a url scr sources now pid s
          = ⟨⟨false, "Stream is already running"⟩, s, none⟩)
    ∧ (∀ (p : Platform) (v : String) (a : Option String) (url : String)
        (now pid now' pid' : Nat) (s : ModuleState), s.proc = none →
        (camStartStep p v a url now pid s).result.success = true
        ∧ (camStartStep p v a url now' pid'
              (camStartStep p v a url now pid s).state).result
            = ⟨false, "Stream is already running"⟩
        ∧ (camStartStep p v a url now' pid'
              (camStartStep p v a url now pid s).state).state
            = (camStartStep p v a url now pid s).state
        ∧ (camStartStep p v a url now' pid'
              (camStartStep p v a url now pid s).state).spawned = none)
    ∧ (∀ (p : Platform) (sid : String) (a : Option String) (url scr : String)
        (sources : List SourceInfo) (now pid now' pid' : Nat) (s : ModuleState),
        s.proc = none → (selectScreenSourceUtils sources scr).isSome = true →
        (screenStartStep p sid a url scr sources now pid s).result.success = true
        ∧ (screenStartStep p sid a url scr sources now' pid'
              (screenStartStep p sid a url scr sources now pid s).state).result
            = ⟨false, "Stream is already running"⟩) := by
  refine ⟨?_, ?_, ?_, ?_⟩
  · intro p v a url now pid s h
    simp [camStartStep, h]
  · intro p sid a url scr sources now pid s h
    simp [screenStartStep, h]
  · intro p v a url now pid now' pid' s h
    simp [camStartStep, h]
  · intro p sid a url scr sources now pid now' pid' s h hsel
    obtain ⟨src, hsrc⟩ := Option.isSome_iff_exists.1 hsel
    simp [screenStartStep, h, hsrc]

/-- Witness for `c5_already_streaming_guard`: a camera start from the idle
state succeeds, an immediate second start fails with the already-streaming
message. -/
theorem c5_already_streaming_guard_witness :
    (camStartStep .darwin "cam" none "rtmp://live/key" 0 1
        ⟨none, initialStatus⟩).result.success = true
    ∧ (camStartStep .darwin "cam" none "rtmp://live/key" 5 2
          (camStartStep .darwin "cam" none "rtmp://live/key" 0 1
            ⟨none, initialStatus⟩).state).result
        = ⟨false, "Stream is already running"⟩ :=
  ⟨(c5_already_streaming_guard.2.2.1 .darwin "cam" none "rtmp://live/key" 0 1 5 2
      ⟨none, initialStatus⟩ rfl).1,
    (c5_already_streaming_guard.2.2.1 .darwin "cam" none "rtmp://live/key" 0 1 5 2
      ⟨none, initialStatus⟩ rfl).2.1⟩

/-- Claim C6: stop is idempotent and never throws: a stop with no active
process returns the no-active-stream failure result and changes nothing; a
stop of a running stream succeeds, nulls the process variable, and every
subsequent stop returns the no-active-stream failure.  Holds for
`stopRtmpStream` of `cameraRtmp.ts` and `stopRtmpStream` of `index.ts`
(total functions of the state — no exception, no hang). -/
theorem c6_stop_idempotent :
    (∀ s : ModuleState, s.proc = none →
        camStopStep s = (⟨false, "No active screen stream to stop"⟩, s))
    ∧ (∀ s : ModuleState, s.proc ≠ none →
        (camStopStep s).1 = ⟨true, "Screen stream stopped successfully"⟩
          ∧ (camStopStep s).2.proc = none
          ∧ (camStopStep (camStopStep s).2).1
              = ⟨false, "No active screen stream to stop"⟩)
    ∧ (∀ s : MainState, s.proc = none →
        mainStopCamera s = (⟨false, "No active stream to stop"⟩, s))
    ∧ (∀ s : MainState, s.proc ≠ none →
        (mainStopCamera s).1 = ⟨true, "Stream stopped successfully"⟩
          ∧ (mainStopCamera s).2.proc = none
          ∧ (mainStopCamera (mainStopCamera s).2).1
              = ⟨false, "No active stream to stop"⟩) := by
  refine ⟨?_, ?_, ?_, ?_⟩
  · intro s h
    simp [camStopStep, h]
  · intro s h
    have h2 : s.proc.isNone = false := by
      cases hp : s.proc with
      | none => exact absurd hp h
      | some v => rfl
    exact ⟨by simp [camStopStep, h2], by simp [camStopStep, h2],
      by simp [camStopStep, h2, initialStatus]⟩
  · intro s h
    simp [mainStopCamera, h]
  · intro s h
    have h2 : s.proc.isNone = false := by
      cases hp : s.proc with
      | none => exact absurd hp h
      | some v => rfl
    exact ⟨by simp [mainStopCamera, h2], by simp [mainStopCamera, h2],
      by simp [mainStopCamera, h2, initialStatus]⟩

/-- Witness for `c6_stop_idempotent`: concrete first and second stops. -/
theorem c6_stop_idempotent_witness :
    camStopStep ⟨none, initialStatus⟩
        = (⟨false, "No active screen stream to stop"⟩, ⟨none, initialStatus⟩)
    ∧ (camStopStep (camStopStep ⟨some 3, ⟨true, "rtmp://live/key", 9, ""⟩⟩).2).1
        = ⟨false, "No active screen stream to stop"⟩ :=
  ⟨c6_stop_idempotent.1 ⟨none, initialStatus⟩ rfl,
    (c6_stop_idempotent.2.1 ⟨some 3, ⟨true, "rtmp://live/key", 9, ""⟩⟩ (by decide)).2.2⟩

/-- Claim C7, counterexample: The claim as stated is false: for the sink url
`http://example.com/live`, which carries neither the `rtmp://` nor the
`rtmps://` scheme, `startRtmpStream` does not fail fast — it succeeds and
spawns the encoder with that url as the last argument.  No scheme check
exists in the code. -/
theorem c7_no_scheme_check_counterexample :
    (camStartStep .darwin "cam" none "http://example.com/live" 0 1
        ⟨none, initialStatus⟩).result.success = true
    ∧ (camStartStep .darwin "cam" none "http://example.com/live" 0 1
        ⟨none, initialStatus⟩).spawned
        = some (cameraArgs .darwin "cam" none "http://example.com/live")
    ∧ (cameraArgs .darwin "cam" none "http://example.com/live").getLast?
        = some "http://example.com/live"
    ∧ isPrefixSeq "rtmp://".toList "http://example.com/live".toList = false
    ∧ isPrefixSeq "rtmps://".toList "http://example.com/live".toList = false := by
  exact ⟨rfl, rfl, by decide, by decide, by decide⟩

/-- Claim C7, amended: The start operations perform no sink-address
validation at all: from an idle state every sink url — whatever its scheme —
is accepted, the start reports success, and the url is passed verbatim as
the last argument of the spawned encoder command.  Holds for
`startRtmpStream` (`cameraRtmp.ts`) and `startScreenRtmpStream`
(`ffmpegUtils.ts`, provided a screen source is found). -/
theorem c7_sink_passed_unvalidated :
    (∀ (p : Platform) (v : String) (a : Option String) (url : String) (now pid : Nat)
        (s : ModuleState), s.proc = none →
        (camStartStep p v a url now pid s).result.success = true
        ∧ (camStartStep p v a url now pid s).spawned = some (cameraArgs p v a url)
        ∧ (cameraArgs p v a url).getLast? = some url)
    ∧ (∀ (p : Platform) (sid : String) (a : Option String) (url scr : String)
        (sources : List SourceInfo) (now pid : Nat) (s : ModuleState),
        s.proc = none → (selectScreenSourceUtils sources scr).isSome = true →
        (screenStartStep p sid a url scr sources now pid s).result.success = true
        ∧ (screenStartStep p sid a url scr sources now pid s).spawned
            = some (screenArgs p a url scr)
        ∧ (screenArgs p a url scr).getLast? = some url) := by
  constructor
  · intro p v a url now pid s h
    exact ⟨by simp [camStartStep, h], by simp [camStartStep, h],
      getLast?_append_right _ _ _ rfl⟩
  · intro p sid a url scr sources now pid s h hsel
    obtain ⟨src, hsrc⟩ := Option.isSome_iff_exists.1 hsel
    exact ⟨by simp [screenStartStep, h, hsrc], by simp [screenStartStep, h, hsrc],
      getLast?_append_right _ _ _ rfl⟩

/-- Witness for `c7_sink_passed_unvalidated`: a non-rtmp sink url on win32
with an audio device. -/
theorem c7_sink_passed_unvalidated_witness :
    (camStartStep .win32 "cam" (some "mic7") "http://not-rtmp/sink" 3 4
        ⟨none, initialStatus⟩).result.success = true
    ∧ (cameraArgs .win32 "cam" (some "mic7") "http://not-rtmp/sink").getLast?
        = some "http://not-rtmp/sink" :=
  ⟨(c7_sink_passed_unvalidated.1 .win32 "cam" (some "mic7") "http://not-rtmp/sink" 3 4
      ⟨none, initialStatus⟩ rfl).1,
    (c7_sink_passed_unvalidated.1 .win32 "cam" (some "mic7") "http://not-rtmp/sink" 3 4
      ⟨none, initialStatus⟩ rfl).2.2⟩

/-- Claim C8: Screen-id resolution by pattern matching: an identifier of the
form `screen:<n>:...` resolves to `<n>`, an all-digit identifier resolves to
itself, and an identifier with no numeric component falls back to the
default `'1'` rather than failing (the resolver is total).  Clauses 1–3 are
`startScreenRtmpStream`'s extractor; clauses 4–5 are `getBestFramerate`'s
(whose pattern requires the trailing colon and which only treats
`screen:`-prefixed ids as screen ids). -/
theorem c8_screen_id_resolution :
    (∀ ds rest : List Char, ds ≠ [] → (∀ c ∈ ds, c.isDigit = true) →
        screenNumericId (String.mk (screenColonPat ++ (ds ++ ':' :: rest)))
          = String.mk ds)
    ∧ (∀ s : String, allDigitsTest s.toList = true → screenNumericId s = s)
    ∧ (∀ s : String, (∀ c ∈ s.toList, c.isDigit = false) → screenNumericId s = "1")
    ∧ (∀ ds rest : List Char, ds ≠ [] → (∀ c ∈ ds, c.isDigit = true) →
        resolveFfmpegId .darwin (String.mk (screenColonPat ++ (ds ++ ':' :: rest))) = ds)
    ∧ (∀ s : String, isPrefixSeq screenColonPat s.toList = true →
        (∀ c ∈ s.toList, c.isDigit = false) → resolveFfmpegId .darwin s = ['1']) := by
  refine ⟨?_, ?_, ?_, ?_, ?_⟩
  · intro ds rest hne hdig
    have htl : (String.mk (screenColonPat ++ (ds ++ ':' :: rest))).toList
        = screenColonPat ++ (ds ++ ':' :: rest) := rfl
    have hall := allDigitsTest_screenColon (ds ++ ':' :: rest)
    have hscan := screenNumScan_at_start ds rest hne hdig
    simp [screenNumericId, htl, hall, hscan]
  · intro s h
    have h' : allDigitsTest s.data = true := h
    simp [screenNumericId, h']
  · intro s h
    have hall : allDigitsTest s.data = false := allDigitsTest_false_of_no_digit s.toList h
    have hscan : screenNumScan s.data = none := screenNumScan_no_digit s.toList h
    simp [screenNumericId, hall, hscan]
  · intro ds rest hne hdig
    have hpre := isPrefixSeq_self_append screenColonPat (ds ++ ':' :: rest)
    have hscan := screenColonNumScan_at_start ds rest hne hdig
    simp [resolveFfmpegId, hpre, hscan]
  · intro s hp h
    have hp' : isPrefixSeq screenColonPat s.data = true := hp
    have hscan : screenColonNumScan s.data = none := screenColonNumScan_no_digit s.toList h
    simp [resolveFfmpegId, hp', hscan]

/-- Witness for `c8_screen_id_resolution`: `screen:2:0` resolves to `2`, an
all-digit id to itself, a digit-free id to the default `1`. -/
theorem c8_screen_id_resolution_witness :
    screenNumericId "screen:2:0" = "2"
    ∧ screenNumericId "42" = "42"
    ∧ screenNumericId "window:main" = "1"
    ∧ resolveFfmpegId .darwin "screen:2:0" = ['2'] := by
  refine ⟨?_, by decide, by decide, by decide⟩
  exact c8_screen_id_resolution.1 ['2'] ['0'] (by decide) (by decide)

/-- Claim C9: The camera and screen stream operations of `index.ts` share one
global `streamStatus` record: every successful start of either kind
overwrites the whole record with that call's data (whatever it held before),
and every successful stop of either kind resets the whole record, so the
`get-rtmp-status` query describes only the most recent start/stop of either
kind. -/
theorem c9_shared_status_record :
    (∀ (p : Platform) (v : String) (a : Option String) (url : String) (now pid : Nat)
        (s : MainState), s.proc = none →
        (mainStartCamera p v a url now pid s).result.success = true
        ∧ getRtmpStatusMain (mainStartCamera p v a url now pid s).state
            = ⟨true, url, now, ""⟩)
    ∧ (∀ (p : Platform) (sid : String) (a : Option String) (url scr : String)
        (sources : List SourceInfo) (now pid : Nat) (s : MainState),
        s.proc2 = none → (selectScreenSourceMain sources scr).isSome = true →
        (mainStartScreen p sid a url scr sources now pid s).result.success = true
        ∧ getRtmpStatusMain (mainStartScreen p sid a url scr sources now pid s).state
            = ⟨true, url, now, ""⟩)
    ∧ (∀ s : MainState, s.proc ≠ none →
        getRtmpStatusMain (mainStopCamera s).2 = initialStatus)
    ∧ (∀ s : MainState, s.proc2 ≠ none →
        getRtmpStatusMain (mainStopScreen s).2 = initialStatus) := by
  refine ⟨?_, ?_, ?_, ?_⟩
  · intro p v a url now pid s h
    constructor <;> simp [mainStartCamera, getRtmpStatusMain, h]
  · intro p sid a url scr sources now pid s h hsel
    obtain ⟨src, hsrc⟩ := Option.isSome_iff_exists.1 hsel
    constructor <;> simp [mainStartScreen, getRtmpStatusMain, h, hsrc]
  · intro s h
    have h2 : s.proc.isNone = false := by
      cases hp : s.proc with
      | none => exact absurd hp h
      | some v => rfl
    simp [mainStopCamera, getRtmpStatusMain, h2]
  · intro s h
    have h2 : s.proc2.isNone = false := by
      cases hp : s.proc2 with
      | none => exact absurd hp h
      | some v => rfl
    simp [mainStopScreen, getRtmpStatusMain, h2]

/-- Witness for `c9_shared_status_record`: a camera start while a screen
process is active and stale status data is stored overwrites the whole
shared record. -/
theorem c9_shared_status_record_witness :
    (mainStartCamera .darwin "cam" none "rtmp://live/new" 11 5
        ⟨none, some 9, ⟨true, "rtmp://live/old", 3, ""⟩⟩).result.success = true
    ∧ getRtmpStatusMain (mainStartCamera .darwin "cam" none "rtmp://live/new" 11 5
        ⟨none, some 9, ⟨true, "rtmp://live/old", 3, ""⟩⟩).state
        = ⟨true, "rtmp://live/new", 11, ""⟩ :=
  c9_shared_status_record.1 .darwin "cam" none "rtmp://live/new" 11 5
    ⟨none, some 9, ⟨true, "rtmp://live/old", 3, ""⟩⟩ rfl






